import Mathlib

/-!
Verification development for `export_vectorized.py`, a utility that prepares an
SVG document for PDF export: it normalizes Inkscape-specific input, absolutizes
the link references of `<image>` elements, inlines linked SVG documents as
transformed groups, and invokes an external renderer.

The Python source is shallowly embedded below.  Modelling conventions:

* Filesystem paths and hrefs are `String`s; the filesystem is a finite map
  from normalized absolute paths to optional parsed documents (`none` marks a
  file that exists but is not well-formed XML).  Only regular files are
  modelled, no directories or symlinks, and the development models the POSIX
  platform (`os.name = "posix"`); path resolution against a relative base
  directory would consult the process working directory, which the filesystem
  model carries explicitly (`FS.cwd`).
* Python floats are modelled as rationals; every arithmetic step exercised in
  this development is exact in binary floating point as well.  Python float
  division by zero raises `ZeroDivisionError`, modelled by `pyDiv`.
* Exceptions are modelled with `Except PyErr`.  An uncaught error aborts the
  whole run, exactly as an uncaught Python exception would.
* External subprocess invocations (the Inkscape plain-SVG conversion and the
  PDF renderer) are modelled as explicit outcome parameters.
-/

namespace SvgExport

/-! ## Character list utilities (modelling Python string primitives) -/

/-- Whitespace recognized by Python `str.strip` / `str.split` for the ASCII
range used in this development. -/
def pyIsSpace (c : Char) : Bool :=
  c = ' ' || c = '\t' || c = '\n' || c = '\r' || c = '\x0b' || c = '\x0c'

/-- Python `str.strip()`: remove leading and trailing whitespace. -/
def pyStrip (s : String) : String :=
  ⟨((s.data.dropWhile pyIsSpace).reverse.dropWhile pyIsSpace).reverse⟩

/-- Split a character list at every character satisfying `p`, keeping empty
groups (the behaviour of Python `str.split(sep)` for a one-character `sep`
when `p` tests for that character). -/
def splitOnP (p : Char → Bool) : List Char → List (List Char)
  | [] => [[]]
  | c :: rest =>
    match splitOnP p rest with
    | [] => [[]]
    | g :: gs => if p c then [] :: g :: gs else (c :: g) :: gs

/-- Join character groups with a separator character (inverse of `splitOnP`
on separator-free groups). -/
def joinChars (sep : Char) : List (List Char) → List Char
  | [] => []
  | [g] => g
  | g :: gs => g ++ sep :: joinChars sep gs

/-- Python `str.split()` with no argument: split on whitespace runs and drop
empty groups. -/
def pySplit (s : String) : List String :=
  ((splitOnP pyIsSpace s.data).filter (· ≠ [])).map (fun l => ⟨l⟩)

/-- Python `str.startswith`. -/
def pyStartswith (s pre : String) : Bool :=
  pre.data.isPrefixOf s.data

/-- Python `str.endswith`. -/
def pyEndswith (s suf : String) : Bool :=
  suf.data.isSuffixOf s.data

/-- Python `str.lower` (ASCII range, which is all this program compares). -/
def pyLower (s : String) : String :=
  ⟨s.data.map Char.toLower⟩

/-- Python `str.replace`: replace every non-overlapping occurrence of `pat`
(scanning left to right) by `repl`.  The recursion is driven by a fuel
counter equal to the input length, which suffices because each step consumes
at least one character (the patterns used by the source are non-empty). -/
def replaceCharsFuel (pat repl : List Char) : Nat → List Char → List Char
  | 0, l => l
  | _, [] => []
  | fuel + 1, c :: rest =>
    if pat.isPrefixOf (c :: rest) ∧ pat ≠ [] then
      repl ++ replaceCharsFuel pat repl fuel ((c :: rest).drop pat.length)
    else
      c :: replaceCharsFuel pat repl fuel rest

/-- Python `str.replace` on `String`s. -/
def pyReplace (s pat repl : String) : String :=
  ⟨replaceCharsFuel pat.data repl.data s.data.length s.data⟩

/-! ## Paths (pathlib / os.path, POSIX flavour, no symlinks) -/

/-- `PurePosixPath.is_absolute`. -/
def isAbsolutePath (p : String) : Bool :=
  p.data.head? = some '/'

/-- One step of lexical path normalization over already-split components:
empty components and `.` are dropped, `..` pops (staying at the root when the
stack is empty), anything else is pushed. -/
def normStep (stack : List (List Char)) (c : List Char) : List (List Char) :=
  if c = [] ∨ c = ['.'] then stack
  else if c = ['.', '.'] then stack.dropLast
  else stack ++ [c]

/-- Test for the path separator. -/
def isSlash (c : Char) : Bool := c = '/'

/-- Lexical normalization of an absolute path: collapse repeated slashes,
resolve `.` and `..`.  This models what `Path.resolve()` does on a
symlink-free filesystem, and what the operating system does when a path with
redundant separators is opened. -/
def normalizePath (p : String) : String :=
  ⟨'/' :: joinChars '/' (List.foldl normStep [] (splitOnP isSlash p.data))⟩

/-- `(base / rel).resolve()` for an absolute `base` on a symlink-free
filesystem: an absolute `rel` stands alone, otherwise it is joined to `base`,
and the result is normalized. -/
def resolvePath (base rel : String) : String :=
  if isAbsolutePath rel then normalizePath rel
  else normalizePath (base ++ "/" ++ rel)

/-- `Path.parent`: the lexical parent directory, as computed by pathlib for
the path shapes arising in this program. -/
def parentDir (p : String) : String :=
  let comps := (splitOnP isSlash p.data).filter (· ≠ [])
  match comps with
  | [] => if isAbsolutePath p then "/" else "."
  | _ :: _ =>
    let comps' := comps.dropLast
    if isAbsolutePath p then ⟨'/' :: joinChars '/' comps'⟩
    else if comps' = [] then "." else ⟨joinChars '/' comps'⟩

/-! ## urllib.parse fragments used by the source -/

/-- Numeric value of a hexadecimal digit. -/
def hexVal (c : Char) : Option Nat :=
  if '0' ≤ c ∧ c ≤ '9' then some (c.toNat - '0'.toNat)
  else if 'a' ≤ c ∧ c ≤ 'f' then some (c.toNat - 'a'.toNat + 10)
  else if 'A' ≤ c ∧ c ≤ 'F' then some (c.toNat - 'A'.toNat + 10)
  else none

/-- `urllib.parse.unquote` on the character level: a `%` followed by two hex
digits is decoded to the corresponding character, anything else is kept.
(The model is byte-accurate for ASCII escape sequences, which is all that the
paths in this development contain; multi-byte UTF-8 escape sequences are out
of scope.) -/
def unquoteChars : List Char → List Char
  | [] => []
  | '%' :: a :: b :: rest =>
    match hexVal a, hexVal b with
    | some ha, some hb => Char.ofNat (16 * ha + hb) :: unquoteChars rest
    | _, _ => '%' :: unquoteChars (a :: b :: rest)
  | c :: rest => c :: unquoteChars rest

/-- `urllib.parse.unquote` on `String`s. -/
def unquote (s : String) : String :=
  ⟨unquoteChars s.data⟩

/-- `urllib.parse.urlparse(href).path` for an `href` that starts with
`file://`: after the scheme, `//` introduces the network location, which
extends to the next `/`, `?` or `#`; the path component then extends to the
next `?` or `#` (query and fragment are split off). -/
def urlparsePathOfFileUri (href : String) : String :=
  let rest := href.data.drop 7
  let afterNetloc := rest.drop (rest.takeWhile (fun c => !(c = '/' || c = '?' || c = '#'))).length
  ⟨afterNetloc.takeWhile (fun c => !(c = '?' || c = '#'))⟩

/-! ## Python numeric primitives -/

inductive PyErr where
  /-- A failed `assert` statement, with its message. -/
  | assertionError (msg : String)
  /-- `float()` applied to a string that does not parse as a number, or tuple
  unpacking of the wrong number of values. -/
  | valueError
  /-- Python float division by zero. -/
  | zeroDivisionError
  /-- `lxml.etree.XMLSyntaxError`: the file exists but is not well-formed. -/
  | xmlSyntaxError
  /-- `OSError`: the file to parse does not exist. -/
  | ioError
  /-- `RuntimeError`, with its message. -/
  | runtimeError (msg : String)
deriving Repr, DecidableEq

/-- Accumulate the value of a digit list. -/
def digitsVal (l : List Char) : Nat :=
  l.foldl (fun a c => 10 * a + (c.toNat - '0'.toNat)) 0

/-- Parse an unsigned decimal numeral, optionally with a fractional part.
`none` models `float()` raising `ValueError`.  (Exponent, `inf` and `nan`
forms are not modelled; the numerals in this program are plain decimals.) -/
def parseUnsignedFloat (l : List Char) : Option ℚ :=
  let intPart := l.takeWhile Char.isDigit
  let rest := l.drop intPart.length
  match rest with
  | [] => if intPart = [] then none else some (digitsVal intPart)
  | '.' :: frac =>
    if frac.all Char.isDigit ∧ ¬(intPart = [] ∧ frac = []) then
      some ((digitsVal intPart : ℚ) + (digitsVal frac : ℚ) / ((10 : ℚ) ^ frac.length))
    else none
  | _ => none

/-- Python `float(s)`: strip surrounding whitespace, then parse an optionally
signed decimal numeral. -/
def parseFloat (s : String) : Option ℚ :=
  match (pyStrip s).data with
  | '-' :: rest => (parseUnsignedFloat rest).map (fun q => -q)
  | '+' :: rest => parseUnsignedFloat rest
  | l => parseUnsignedFloat l

/-- `float(s)` as a fallible computation. -/
def pyFloat (s : String) : Except PyErr ℚ :=
  match parseFloat s with
  | some q => .ok q
  | none => .error .valueError

/-- Python float division: raises `ZeroDivisionError` on a zero divisor. -/
def pyDiv (a b : ℚ) : Except PyErr ℚ :=
  if b = 0 then .error .zeroDivisionError else .ok (a / b)

/-! ## The SVG document model -/

/-- One entry of a composed `transform` attribute value.  The source builds
the attribute as a space-joined list of transform-syntax strings; the list
structure is kept explicit so that the composition order is visible. -/
inductive TransformPart where
  /-- A pre-existing `transform` attribute value, prepended verbatim. -/
  | raw (s : String)
  /-- `translate(x,y)`. -/
  | translate (x y : ℚ)
  /-- `scale(sx,sy)`. -/
  | scale (sx sy : ℚ)
deriving Repr, DecidableEq

/-- An attribute value: either ordinary text, or the structured transform
list carried by a wrapper group generated during inlining (the source renders
the latter as a space-joined string; nothing in the program ever reads it
back). -/
inductive AttrVal where
  | str (s : String)
  | transforms (ts : List TransformPart)
deriving Repr, DecidableEq

/-- An XML element: tag, attributes in document order, children.  Tags and
attribute keys are namespace-qualified the way lxml reports them, e.g.
`\x7bhttp://www.w3.org/2000/svg\x7dimage`. -/
inductive Element where
  | mk (tag : String) (attrib : List (String × AttrVal)) (children : List Element)

def Element.tag : Element → String
  | .mk t _ _ => t

def Element.attrib : Element → List (String × AttrVal)
  | .mk _ a _ => a

def Element.children : Element → List Element
  | .mk _ _ c => c

/-- A parsed XML document: the root element together with the namespace
prefixes declared on the root (`root.nsmap` keys; `none` is the default
namespace). -/
structure Document where
  root : Element
  nsmapKeys : List (Option String)

/-- `element.attrib.get(key)` for a textual attribute. -/
def getAttrStr (attrib : List (String × AttrVal)) (k : String) : Option String :=
  match attrib.find? (fun kv => kv.1 = k) with
  | some (_, .str s) => some s
  | _ => none

/-- `element.attrib[key] = AttrVal.str v`: overwrite in place, preserving
attribute order (append if absent). -/
def setAttr (attrib : List (String × AttrVal)) (k v : String) : List (String × AttrVal) :=
  match attrib with
  | [] => [(k, .str v)]
  | (k', v') :: rest => if k' = k then (k, .str v) :: rest else (k', v') :: setAttr rest k v

/-! ## The filesystem model -/

/-- The filesystem: the working directory (used to resolve relative paths in
existence checks, as the OS would) and the set of existing regular files,
keyed by normalized absolute path, each carrying its parse result (`none`
models a file that is not well-formed XML, e.g. a PNG). -/
structure FS where
  cwd : String
  files : List (String × Option Document)

/-- The normalized absolute path a filesystem access to `p` refers to. -/
def FS.resolve (fs : FS) (p : String) : String :=
  resolvePath fs.cwd p

/-- `Path(p).exists()` / `Path(p).is_file()` (only regular files are
modelled). -/
def FS.hasFile (fs : FS) (p : String) : Bool :=
  fs.files.any (fun f => f.1 = fs.resolve p)

/-- `lxml.etree.parse(p)`: `OSError` if the file is missing,
`XMLSyntaxError` if it is not well-formed, otherwise the document. -/
def FS.parseFile (fs : FS) (p : String) : Except PyErr Document :=
  match fs.files.find? (fun f => f.1 = fs.resolve p) with
  | none => .error .ioError
  | some (_, none) => .error .xmlSyntaxError
  | some (_, some d) => .ok d

/-! ## Namespace-qualified names used by the source -/

/-- The fully-qualified `xlink:href` attribute name (`href_attr` in the
source). -/
def href_attr : String := "\x7bhttp://www.w3.org/1999/xlink\x7dhref"

/-- The fully-qualified `svg:image` tag, matched by the `.//svg:image`
XPath query. -/
def svgImageTag : String := "\x7bhttp://www.w3.org/2000/svg\x7dimage"

/-- The fully-qualified `svg:g` tag used for the wrapper group. -/
def svgGTag : String := "\x7bhttp://www.w3.org/2000/svg\x7dg"

/-- The platform the development models (`os.name`). -/
def os_name : String := "posix"

/-! ## Path Resolver: `make_absolute_href` and `extract_path_from_href` -/

/-- The guard of `make_absolute_href`: data, http(s) and fully-qualified
file-scheme references, and absolute filesystem paths, are returned
unchanged. -/
def isNonLocalOrAbsolute (href : String) : Bool :=
  pyStartswith href "data:" || pyStartswith href "http:" || pyStartswith href "https:" ||
    pyStartswith href "file:///" || pyStartswith href "file:////" || isAbsolutePath href

/-- `make_absolute_href(href, base_path)`: leave non-local and absolute
references alone; otherwise resolve against `base_path`, `assert` that the
target is a regular file (an `AssertionError` aborts the caller), and return
`"file:///" + abs_path.as_posix()`.  Note that `as_posix()` of an absolute
path itself starts with `/`, so the returned reference has four slashes
after the scheme. -/
def make_absolute_href (fs : FS) (href : String) (base_path : String) : Except PyErr String :=
  if isNonLocalOrAbsolute href then .ok href
  else
    let abs_path := resolvePath base_path href
    if fs.hasFile abs_path then .ok ("file:///" ++ abs_path)
    else .error (.assertionError ("File " ++ abs_path ++ " doesn\x27t exist!"))

/-- `extract_path_from_href(href)`: for a `file://` reference, take the
percent-decoded path component reported by `urlparse`; on Windows a leading
slash before a drive letter would additionally be stripped (inert on the
POSIX platform modelled here).  Anything else is interpreted directly as a
filesystem path. -/
def extract_path_from_href (href : String) : String :=
  if pyStartswith href "file://" then
    let path := unquote (urlparsePathOfFileUri href)
    if os_name = "nt" ∧ path.data.head? = some '/' ∧ 2 < path.data.length ∧
        path.data.get? 2 = some ':' then
      ⟨path.data.drop 1⟩
    else path
  else href

/-! ## Vector Inliner: `inline_svg_image_element` -/

/-- Lines 134–142 of the source: the Viewport Descriptor of a linked
document.  Prefer a non-empty `viewBox` attribute (`if viewBox:` is false
for both a missing and an empty attribute), whose four whitespace-separated
numbers yield `(width, height)` from components three and four (any other
token count fails tuple unpacking with `ValueError`); otherwise fall back to
the `width`/`height` attributes with every occurrence of `"px"` removed,
each defaulting independently to `"1"`, and emit a warning (the returned
flag records that the fallback fired). -/
def computeViewport (sub_root : Element) : Except PyErr (ℚ × ℚ × Bool) :=
  let fallback : Except PyErr (ℚ × ℚ × Bool) :=
    match pyFloat (pyReplace ((getAttrStr sub_root.attrib "width").getD "1") "px" "") with
    | .error e => .error e
    | .ok w =>
      match pyFloat (pyReplace ((getAttrStr sub_root.attrib "height").getD "1") "px" "") with
      | .error e => .error e
      | .ok h => .ok (w, h, true)
  match getAttrStr sub_root.attrib "viewBox" with
  | none => fallback
  | some vb =>
    if vb = "" then fallback
    else
      match pySplit (pyStrip vb) with
      | [a, b, c, d] =>
        match parseFloat a, parseFloat b, parseFloat c, parseFloat d with
        | some _, some _, some w, some h => .ok (w, h, false)
        | _, _, _, _ => .error .valueError
      | _ => .error .valueError

/-- Lines 152–155 of the source: the composite transform.  Translation and
scale are listed in that order, and a pre-existing `transform` attribute is
inserted in front. -/
def buildTransform (existing : Option String) (x y scale_x scale_y : ℚ) : List TransformPart :=
  let parts := [TransformPart.translate x y, TransformPart.scale scale_x scale_y]
  match existing with
  | some t => TransformPart.raw t :: parts
  | none => parts

/-- The wrapper group an inlining produces: its composite transform and the
re-parented top-level children of the linked document. -/
structure Wrapper where
  transform : List TransformPart
  children : List Element

/-- Result of `inline_svg_image_element`: either the placeholder was left
untouched because the linked file is missing (a warning is logged), or it is
to be replaced by the wrapper group. -/
inductive InlineOutcome where
  | skippedMissing
  | replaced (w : Wrapper)

/-- `inline_svg_image_element(image_elem, href, parser, href_attr)`:
extract the linked path, skip with a warning if it does not exist, parse it,
determine the viewport, read the placeholder geometry (`x`/`y` default
`"0"`; `width`/`height` default to the stringified viewport dimensions,
which re-parse to the same numbers), divide to obtain the scale factors
(Python float division by zero raises `ZeroDivisionError`), build the
composite transform and the wrapper group that replaces the placeholder. -/
def inline_svg_image_element (fs : FS) (image_elem : Element) (href : String) :
    Except PyErr InlineOutcome :=
  let linked_path := extract_path_from_href href
  if fs.hasFile linked_path then
    match fs.parseFile linked_path with
    | .error e => .error e
    | .ok doc =>
      let sub_root := doc.root
      match computeViewport sub_root with
      | .error e => .error e
      | .ok (vb_width, vb_height, _) =>
        match pyFloat ((getAttrStr image_elem.attrib "x").getD "0") with
        | .error e => .error e
        | .ok x =>
          match pyFloat ((getAttrStr image_elem.attrib "y").getD "0") with
          | .error e => .error e
          | .ok y =>
            match (match getAttrStr image_elem.attrib "width" with
                   | some s => pyFloat s
                   | none => .ok vb_width) with
            | .error e => .error e
            | .ok width =>
              match (match getAttrStr image_elem.attrib "height" with
                     | some s => pyFloat s
                     | none => .ok vb_height) with
              | .error e => .error e
              | .ok height =>
                match pyDiv width vb_width with
                | .error e => .error e
                | .ok scale_x =>
                  match pyDiv height vb_height with
                  | .error e => .error e
                  | .ok scale_y =>
                    .ok (.replaced
                      { transform := buildTransform
                          (getAttrStr image_elem.attrib "transform") x y scale_x scale_y
                        children := sub_root.children })
  else .ok .skippedMissing

/-! ## Document Linker: `inline_linked_vectors` -/

/-- Lines 184–194 of the source, the body of the first pass for one `<image>`
element: absolutize its link reference.  The returned flag records whether
the `"Linked file not found"` warning branch fired (in which case the
attribute is left unchanged). -/
def firstPassAttrib (fs : FS) (base_dir : String) (attrib : List (String × AttrVal)) :
    Except PyErr (List (String × AttrVal) × Bool) :=
  match getAttrStr attrib href_attr with
  | none => .ok (attrib, false)
  | some href =>
    if href = "" then .ok (attrib, false)
    else
      match make_absolute_href fs href base_dir with
      | .error e => .error e
      | .ok new_href =>
        if new_href ≠ href then
          if fs.hasFile (extract_path_from_href new_href) then
            .ok (setAttr attrib href_attr new_href, false)
          else
            .ok (attrib, true)
        else .ok (attrib, false)

mutual
/-- First pass over one element of the tree: absolutization applies to every
`svg:image` element; an element is visited before its descendants, matching
`.//svg:image` document order.  An `AssertionError` raised by
`make_absolute_href` propagates and aborts the pass. -/
def firstPassEl (fs : FS) (base_dir : String) : Element → Except PyErr Element
  | .mk tag attrib children =>
    match (if tag = svgImageTag
           then (firstPassAttrib fs base_dir attrib).map Prod.fst
           else .ok attrib) with
    | .error e => .error e
    | .ok attrib' =>
      match firstPassChildren fs base_dir children with
      | .error e => .error e
      | .ok ch => .ok (.mk tag attrib' ch)

/-- First pass over a child list, in document order. -/
def firstPassChildren (fs : FS) (base_dir : String) : List Element → Except PyErr (List Element)
  | [] => .ok []
  | e :: rest =>
    match firstPassEl fs base_dir e with
    | .error er => .error er
    | .ok e' =>
      match firstPassChildren fs base_dir rest with
      | .error er => .error er
      | .ok rest' => .ok (e' :: rest')
end

mutual
/-- Second pass over one element: an `svg:image` whose (possibly rewritten)
reference ends in `.svg` case-insensitively is inlined; on a successful
inlining the element is replaced by the wrapper group, whose content is not
walked further (it was not part of the snapshot the pass iterates over).
The model matches the source for documents in which `image` elements are not
nested inside each other. -/
def secondPassEl (fs : FS) : Element → Except PyErr Element
  | .mk tag attrib children =>
    if tag = svgImageTag then
      match getAttrStr attrib href_attr with
      | none =>
        match secondPassChildren fs children with
        | .error e => .error e
        | .ok ch => .ok (.mk tag attrib ch)
      | some href =>
        if href = "" then
          match secondPassChildren fs children with
          | .error e => .error e
          | .ok ch => .ok (.mk tag attrib ch)
        else if pyEndswith (pyLower href) ".svg" then
          match inline_svg_image_element fs (.mk tag attrib children) href with
          | .error e => .error e
          | .ok .skippedMissing =>
            match secondPassChildren fs children with
            | .error e => .error e
            | .ok ch => .ok (.mk tag attrib ch)
          | .ok (.replaced w) =>
            .ok (.mk svgGTag [("transform", AttrVal.transforms w.transform)] w.children)
        else
          match secondPassChildren fs children with
          | .error e => .error e
          | .ok ch => .ok (.mk tag attrib ch)
    else
      match secondPassChildren fs children with
      | .error e => .error e
      | .ok ch => .ok (.mk tag attrib ch)

/-- Second pass over a child list, in document order. -/
def secondPassChildren (fs : FS) : List Element → Except PyErr (List Element)
  | [] => .ok []
  | e :: rest =>
    match secondPassEl fs e with
    | .error er => .error er
    | .ok e' =>
      match secondPassChildren fs rest with
      | .error er => .error er
      | .ok rest' => .ok (e' :: rest')
end

/-- `inline_linked_vectors(svg_path)`: parse the document, run the
absolutization pass, then the inlining pass, over all `.//svg:image`
elements (the root is not an image).  The mutated tree is what the source
serializes to a fresh temporary file; the caller owns that file. -/
def inline_linked_vectors (fs : FS) (svg_path : String) : Except PyErr Document :=
  match fs.parseFile svg_path with
  | .error e => .error e
  | .ok doc =>
    let base_dir := parentDir svg_path
    match firstPassChildren fs base_dir doc.root.children with
    | .error e => .error e
    | .ok ch1 =>
      match secondPassChildren fs ch1 with
      | .error e => .error e
      | .ok ch2 => .ok ⟨.mk doc.root.tag doc.root.attrib ch2, doc.nsmapKeys⟩

/-! ## Format Normalizer: `convert_to_plain_svg_if_needed` -/

/-- `any(ns for ns in nsmap if ns in ["inkscape", "sodipodi"])`: every key
that survives the filter is one of the two non-empty prefix strings, hence
truthy, so the test is simply membership of either prefix. -/
def needsConversion (nsmapKeys : List (Option String)) : Bool :=
  nsmapKeys.any (fun ns => ns = some "inkscape" || ns = some "sodipodi")

/-- Outcome of the external `inkscape --export-plain-svg` subprocess. -/
inductive ConvOutcome where
  /-- Non-zero exit status. -/
  | failure
  /-- Exit status zero but the output file is missing or empty. -/
  | missingOrEmpty
  /-- The produced plain-SVG file, as parsed (`none`: not well-formed). -/
  | success (content : Option Document)

/-- `convert_to_plain_svg_if_needed(svg_path)`: parse the document (a parse
failure is fatal); if an Inkscape-specific namespace prefix is declared,
create a fresh temporary file and convert into it via the subprocess —
failure or empty output raises `RuntimeError` — otherwise return the
original path unchanged.  The result carries the path to use, whether a
temporary file was created, and the filesystem extended with it. -/
def convert_to_plain_svg_if_needed (fs : FS) (svg_path : String) (tmpName : String)
    (conv : ConvOutcome) : Except PyErr (String × Bool × FS) :=
  match fs.parseFile svg_path with
  | .error e => .error e
  | .ok doc =>
    if needsConversion doc.nsmapKeys then
      match conv with
      | .failure => .error (.runtimeError "Inkscape export-plain-svg failed.")
      | .missingOrEmpty => .error (.runtimeError "Plain SVG output is empty.")
      | .success content =>
        .ok (tmpName, true, ⟨fs.cwd, (fs.resolve tmpName, content) :: fs.files⟩)
    else .ok (svg_path, false, fs)

/-! ## `main`: the pipeline with its temporary-file bookkeeping -/

/-- What one run of `main` did: the overall result, whether the
normalization stage produced a temporary plain-SVG document, and whether
each of the two temporary files had been unlinked by the time the process
ended. -/
structure RunOutcome where
  result : Except PyErr Unit
  plainCreated : Bool
  plainDeleted : Bool
  inlinedDeleted : Bool
deriving Repr

/-- Lines 256–270 of the source.  `main` normalizes, links, deletes the
normalization temporary (only on the straight-line path after linking
returned), then renders inside `try/finally` that deletes the linking
temporary.  The renderer subprocess is abstracted as `render`. -/
def mainModel (fs : FS) (input_svg tmpPlain : String) (conv : ConvOutcome)
    (render : Except PyErr Unit) : RunOutcome :=
  match convert_to_plain_svg_if_needed fs input_svg tmpPlain conv with
  | .error e => { result := .error e, plainCreated := false
                  plainDeleted := false, inlinedDeleted := false }
  | .ok (cleaned, created, fs') =>
    match inline_linked_vectors fs' cleaned with
    | .error e => { result := .error e, plainCreated := created
                    plainDeleted := false, inlinedDeleted := false }
    | .ok _ =>
      let plainDel : Bool := cleaned ≠ input_svg
      match render with
      | .error e => { result := .error e, plainCreated := created
                      plainDeleted := plainDel, inlinedDeleted := true }
      | .ok _ => { result := .ok (), plainCreated := created
                   plainDeleted := plainDel, inlinedDeleted := true }

/-! ## General lemmas about the string and path utilities -/

/-- A path component that lexical normalization can neither drop nor pop. -/
def PlainComp (g : List Char) : Prop :=
  g ≠ [] ∧ g ≠ ['.'] ∧ g ≠ ['.', '.']

theorem splitOnP_ne_nil (p : Char → Bool) (l : List Char) : splitOnP p l ≠ [] := by
  induction l with
  | nil => simp [splitOnP]
  | cons c rest ih =>
    cases h : splitOnP p rest with
    | nil => exact absurd h ih
    | cons g gs => simp only [splitOnP, h]; split <;> simp

theorem splitOnP_cons_sep (p : Char → Bool) (c : Char) (l : List Char) (hc : p c = true) :
    splitOnP p (c :: l) = [] :: splitOnP p l := by
  cases h : splitOnP p l with
  | nil => exact absurd h (splitOnP_ne_nil p l)
  | cons g gs => simp only [splitOnP, h, hc]; simp

theorem splitOnP_append_group (p : Char → Bool) (g : List Char)
    (hg : ∀ c ∈ g, p c = false) (l : List Char) (h t : _)
    (hl : splitOnP p l = h :: t) : splitOnP p (g ++ l) = (g ++ h) :: t := by
  induction g with
  | nil => simpa using hl
  | cons c g' ih =>
    have hc : p c = false := hg c (by simp)
    have ih' := ih (fun d hd => hg d (by simp [hd]))
    have hsplit : splitOnP p ((c :: g') ++ l)
        = if p c then [] :: (g' ++ h) :: t else (c :: (g' ++ h)) :: t := by
      simp only [List.cons_append, splitOnP, List.append_eq]
      rw [ih']
    rw [hsplit, if_neg (by simp [hc])]
    simp

theorem splitOnP_sep_free (p : Char → Bool) (l : List Char) :
    ∀ g ∈ splitOnP p l, ∀ c ∈ g, p c = false := by
  induction l with
  | nil =>
    intro g hg
    simp only [splitOnP, List.mem_singleton] at hg
    subst hg; simp
  | cons c rest ih =>
    intro g hg d hd
    cases h : splitOnP p rest with
    | nil => exact absurd h (splitOnP_ne_nil p rest)
    | cons g0 gs =>
      have hsplit : splitOnP p (c :: rest)
          = if p c then [] :: g0 :: gs else (c :: g0) :: gs := by
        simp only [splitOnP]
        rw [h]
      rw [hsplit] at hg
      by_cases hc : p c = true
      · rw [if_pos hc] at hg
        rcases List.mem_cons.mp hg with hg | hg
        · subst hg; simp at hd
        · exact ih g (h ▸ hg) d hd
      · have hc' : p c = false := by simpa using hc
        rw [if_neg (by simp [hc'])] at hg
        rcases List.mem_cons.mp hg with hg | hg
        · subst hg
          rcases List.mem_cons.mp hd with hd | hd
          · exact hd ▸ hc'
          · exact ih g0 (h ▸ List.mem_cons_self g0 gs) d hd
        · exact ih g (h ▸ List.mem_cons_of_mem g0 hg) d hd

theorem splitOnP_joinChars (p : Char → Bool) (sep : Char) (hsep : p sep = true) :
    ∀ gs : List (List Char), (∀ g ∈ gs, ∀ c ∈ g, p c = false) → gs ≠ [] →
      splitOnP p (joinChars sep gs) = gs := by
  intro gs
  induction gs with
  | nil => intro _ h; exact absurd rfl h
  | cons g gs ih =>
    intro hfree _
    cases gs with
    | nil =>
      have : splitOnP p (g ++ ([] : List Char)) = (g ++ []) :: [] :=
        splitOnP_append_group p g (fun c hc => hfree g (by simp) c hc) [] [] [] rfl
      simpa [joinChars] using this
    | cons g2 gs2 =>
      have hrec : splitOnP p (joinChars sep (g2 :: gs2)) = g2 :: gs2 :=
        ih (fun x hx c hc => hfree x (by simp [hx]) c hc) (by simp)
      have hsepcons : splitOnP p (sep :: joinChars sep (g2 :: gs2))
          = [] :: g2 :: gs2 := by
        rw [splitOnP_cons_sep p sep _ hsep, hrec]
      have := splitOnP_append_group p g (fun c hc => hfree g (by simp) c hc)
        (sep :: joinChars sep (g2 :: gs2)) [] (g2 :: gs2) hsepcons
      simpa [joinChars] using this

theorem foldl_normStep_plain (gs : List (List Char))
    (h : ∀ g ∈ gs, PlainComp g) :
    ∀ init, List.foldl normStep init gs = init ++ gs := by
  induction gs with
  | nil => intro init; simp
  | cons g gs ih =>
    intro init
    obtain ⟨h1, h2, h3⟩ := h g (by simp)
    have hstep : normStep init g = init ++ [g] := by
      unfold normStep
      rw [if_neg (by simp [h1, h2]), if_neg h3]
    rw [List.foldl_cons, hstep, ih (fun x hx => h x (by simp [hx]))]
    simp

theorem foldl_normStep_all_plain (gs : List (List Char)) :
    ∀ init, (∀ g ∈ init, PlainComp g) →
      ∀ g ∈ List.foldl normStep init gs, PlainComp g := by
  induction gs with
  | nil => intro init hinit; simpa using hinit
  | cons c gs ih =>
    intro init hinit
    rw [List.foldl_cons]
    apply ih
    intro g hg
    unfold normStep at hg
    by_cases h1 : c = [] ∨ c = ['.']
    · rw [if_pos h1] at hg; exact hinit g hg
    · rw [if_neg h1] at hg
      by_cases h2 : c = ['.', '.']
      · rw [if_pos h2] at hg; exact hinit g (List.dropLast_subset init hg)
      · rw [if_neg h2] at hg
        rcases List.mem_append.mp hg with hg | hg
        · exact hinit g hg
        · simp only [List.mem_singleton] at hg
          subst hg
          exact ⟨fun hc => h1 (Or.inl hc), fun hc => h1 (Or.inr hc), h2⟩

theorem foldl_normStep_pres (P : List Char → Prop) (gs : List (List Char)) :
    ∀ init, (∀ g ∈ init, P g) → (∀ g ∈ gs, P g) →
      ∀ g ∈ List.foldl normStep init gs, P g := by
  induction gs with
  | nil => intro init hinit _; simpa using hinit
  | cons c gs ih =>
    intro init hinit hgs
    rw [List.foldl_cons]
    apply ih
    · intro g hg
      unfold normStep at hg
      by_cases h1 : c = [] ∨ c = ['.']
      · rw [if_pos h1] at hg; exact hinit g hg
      · rw [if_neg h1] at hg
        by_cases h2 : c = ['.', '.']
        · rw [if_pos h2] at hg; exact hinit g (List.dropLast_subset init hg)
        · rw [if_neg h2] at hg
          rcases List.mem_append.mp hg with hg | hg
          · exact hinit g hg
          · simp only [List.mem_singleton] at hg
            exact hg ▸ hgs c (by simp)
    · exact fun g hg => hgs g (by simp [hg])

theorem takeWhile_of_all {p : Char → Bool} {l : List Char}
    (h : ∀ c ∈ l, p c = true) : l.takeWhile p = l := by
  induction l with
  | nil => rfl
  | cons c rest ih =>
    rw [List.takeWhile_cons, if_pos (h c (by simp))]
    rw [ih (fun d hd => h d (by simp [hd]))]

theorem isPrefixOf_append_self (l t : List Char) : l.isPrefixOf (l ++ t) = true := by
  induction l with
  | nil => simp [List.isPrefixOf]
  | cons c rest ih => simp [List.isPrefixOf, ih]

theorem unquoteChars_of_no_percent : ∀ (l : List Char),
    (∀ c ∈ l, c ≠ '%') → unquoteChars l = l := by
  intro l
  induction l using unquoteChars.induct with
  | case1 => intro _; rfl
  | case2 a b rest ha hb hhb hha ih => intro h; exact absurd rfl (h '%' (by simp))
  | case3 a b rest hfall ih => intro h; exact absurd rfl (h '%' (by simp))
  | case4 c rest hguard ih =>
    intro h
    have hrec : unquoteChars rest = rest := ih (fun d hd => h d (by simp [hd]))
    rw [unquoteChars.eq_def]
    split
    · rename_i heq; exact absurd heq (by simp)
    · rename_i a b rest1 heq
      injection heq with h1 h2
      exact absurd h1 (h c (by simp))
    · rename_i c2 rest2 heq
      injection heq with h1 h2
      subst h1; subst h2
      rw [hrec]

/-- The component list of a resolved path: every component is plain and
slash-free, and the path is the slash-join of the components behind a
leading slash. -/
theorem resolvePath_shape (base rel : String) :
    ∃ S : List (List Char),
      (resolvePath base rel).data = '/' :: joinChars '/' S ∧
        (∀ g ∈ S, PlainComp g) ∧ (∀ g ∈ S, ∀ c ∈ g, isSlash c = false) := by
  have core : ∀ x : String,
      ∃ S : List (List Char),
        (normalizePath x).data = '/' :: joinChars '/' S ∧
          (∀ g ∈ S, PlainComp g) ∧ (∀ g ∈ S, ∀ c ∈ g, isSlash c = false) := by
    intro x
    refine ⟨List.foldl normStep [] (splitOnP isSlash x.data), rfl, ?_, ?_⟩
    · exact foldl_normStep_all_plain _ [] (by simp)
    · exact foldl_normStep_pres _ _ [] (by simp) (splitOnP_sep_free isSlash x.data)
  unfold resolvePath
  split
  · exact core rel
  · exact core (base ++ "/" ++ rel)

/-- Normalizing a slash-join of plain, slash-free components (with one or
two leading slashes) returns the single-slash slash-join: the form every
resolved path takes is a fixed point of normalization, and the doubled
leading slash produced by `"file:///" + as_posix()` round-trips to it. -/
theorem normalizePath_slash_join (S : List (List Char))
    (h1 : ∀ g ∈ S, PlainComp g) (h2 : ∀ g ∈ S, ∀ c ∈ g, isSlash c = false) :
    normalizePath ⟨'/' :: joinChars '/' S⟩ = ⟨'/' :: joinChars '/' S⟩ ∧
      normalizePath ⟨'/' :: '/' :: joinChars '/' S⟩ = ⟨'/' :: joinChars '/' S⟩ := by
  have hslash : isSlash '/' = true := rfl
  cases S with
  | nil => exact ⟨rfl, rfl⟩
  | cons g gs =>
    have hJ : splitOnP isSlash (joinChars '/' (g :: gs)) = g :: gs :=
      splitOnP_joinChars isSlash '/' hslash _ h2 (by simp)
    have hfix : List.foldl normStep [] (g :: gs) = g :: gs := by
      simpa using foldl_normStep_plain _ h1 []
    constructor
    · show (⟨'/' :: joinChars '/'
        (List.foldl normStep [] (splitOnP isSlash ('/' :: joinChars '/' (g :: gs))))⟩ : String)
        = ⟨'/' :: joinChars '/' (g :: gs)⟩
      rw [splitOnP_cons_sep isSlash '/' _ hslash, hJ]
      show (⟨'/' :: joinChars '/'
        (List.foldl normStep (normStep [] []) (g :: gs))⟩ : String) = _
      rw [show normStep ([] : List (List Char)) [] = [] from rfl, hfix]
    · show (⟨'/' :: joinChars '/'
        (List.foldl normStep []
          (splitOnP isSlash ('/' :: '/' :: joinChars '/' (g :: gs))))⟩ : String)
        = ⟨'/' :: joinChars '/' (g :: gs)⟩
      rw [splitOnP_cons_sep isSlash '/' _ hslash, splitOnP_cons_sep isSlash '/' _ hslash, hJ]
      show (⟨'/' :: joinChars '/'
        (List.foldl normStep (normStep (normStep [] []) []) (g :: gs))⟩ : String) = _
      rw [show normStep (normStep ([] : List (List Char)) []) [] = [] from rfl, hfix]

/-- A resolved path is already normalized. -/
theorem normalizePath_resolvePath (base rel : String) :
    normalizePath (resolvePath base rel) = resolvePath base rel := by
  obtain ⟨S, hS, h1, h2⟩ := resolvePath_shape base rel
  have := (normalizePath_slash_join S h1 h2).1
  calc normalizePath (resolvePath base rel)
      = normalizePath ⟨'/' :: joinChars '/' S⟩ := by rw [show resolvePath base rel
          = ⟨'/' :: joinChars '/' S⟩ from congrArg String.mk hS]
    _ = ⟨'/' :: joinChars '/' S⟩ := this
    _ = resolvePath base rel := (congrArg String.mk hS).symm

/-- Prefixing a resolved path with one more slash normalizes back to it. -/
theorem normalizePath_slash_resolvePath (base rel : String) :
    normalizePath ⟨'/' :: (resolvePath base rel).data⟩ = resolvePath base rel := by
  obtain ⟨S, hS, h1, h2⟩ := resolvePath_shape base rel
  have := (normalizePath_slash_join S h1 h2).2
  calc normalizePath ⟨'/' :: (resolvePath base rel).data⟩
      = normalizePath ⟨'/' :: '/' :: joinChars '/' S⟩ := by rw [hS]
    _ = ⟨'/' :: joinChars '/' S⟩ := this
    _ = resolvePath base rel := (congrArg String.mk hS).symm

/-- A resolved path is absolute. -/
theorem isAbsolutePath_resolvePath (base rel : String) :
    isAbsolutePath (resolvePath base rel) = true := by
  obtain ⟨S, hS, -, -⟩ := resolvePath_shape base rel
  unfold isAbsolutePath
  rw [hS]
  rfl

/-- A reference is "URI-clean" when it contains none of the characters that
the `file://`-URI round trip reinterprets: percent escapes (decoded by
`unquote`) and query/fragment introducers (split off by `urlparse`). -/
def uriClean (p : String) : Bool :=
  p.data.all (fun c => !(c = '%' || c = '?' || c = '#'))

/-- When `make_absolute_href` actually resolves a relative reference, it
returns the file URI of the resolved path. -/
theorem make_absolute_href_resolves (fs : FS) (href base : String)
    (hn : isNonLocalOrAbsolute href = false)
    (hf : fs.hasFile (resolvePath base href) = true) :
    make_absolute_href fs href base = .ok ("file:///" ++ resolvePath base href) := by
  unfold make_absolute_href
  rw [if_neg (by simp [hn]), if_pos hf]

/-- Extracting the filesystem path back out of a produced file URI: for a
URI-clean resolved target the result is the target's path behind one extra
leading slash (`urlparse` reports an empty netloc and a doubled-slash path,
and `unquote` is the identity). -/
theorem extract_file_uri_of_clean (P : String) (hclean : uriClean P = true) :
    extract_path_from_href ("file:///" ++ P) = ⟨'/' :: P.data⟩ := by
  have hdata : ("file:///" ++ P).data = "file://".data ++ ('/' :: P.data) := by
    rw [String.data_append]
    rfl
  have hstart : pyStartswith ("file:///" ++ P) "file://" = true := by
    unfold pyStartswith
    rw [hdata]
    exact isPrefixOf_append_self _ _
  have hdrop : ("file:///" ++ P).data.drop 7 = '/' :: P.data := by
    rw [hdata, show (7 : Nat) = ("file://".data).length from rfl, List.drop_left]
  have hallclean : ∀ c ∈ P.data, (c = '%' || c = '?' || c = '#') = false := by
    intro c hc
    have := List.all_eq_true.mp hclean c hc
    simpa using this
  have hnet : List.takeWhile (fun c => !(c = '/' || c = '?' || c = '#'))
      ('/' :: P.data) = [] := by
    rw [List.takeWhile_cons]
    simp
  have hpath : List.takeWhile (fun c => !(c = '?' || c = '#'))
      ('/' :: P.data) = '/' :: P.data := by
    apply takeWhile_of_all
    intro c hc
    rcases List.mem_cons.mp hc with hc | hc
    · subst hc; rfl
    · have := hallclean c hc
      simp only [Bool.or_eq_false_iff] at this
      simp [this.1.2, this.2]
  have hurl : urlparsePathOfFileUri ("file:///" ++ P) = ⟨'/' :: P.data⟩ := by
    simp only [urlparsePathOfFileUri, hdrop, hnet, List.length_nil, List.drop_zero, hpath]
  have hunq : unquote ⟨'/' :: P.data⟩ = ⟨'/' :: P.data⟩ := by
    unfold unquote
    apply congrArg String.mk
    apply unquoteChars_of_no_percent
    intro c hc
    rcases List.mem_cons.mp hc with hc | hc
    · subst hc; simp
    · have := hallclean c hc
      simp only [Bool.or_eq_false_iff] at this
      intro hc'
      rw [hc'] at this
      simpa using this.1.1
  unfold extract_path_from_href
  rw [if_pos hstart, hurl, hunq]
  rw [if_neg (by simp [os_name])]

/-- A successful parse implies the file exists. -/
theorem hasFile_of_parseFile (fs : FS) (p : String) (d : Document)
    (h : fs.parseFile p = .ok d) : fs.hasFile p = true := by
  unfold FS.parseFile at h
  unfold FS.hasFile
  cases hf : fs.files.find? (fun f => f.1 = fs.resolve p) with
  | none => rw [hf] at h; cases h
  | some kv =>
    have hmem := List.mem_of_find?_eq_some hf
    have hpred := List.find?_some hf
    exact List.any_eq_true.mpr ⟨kv, hmem, hpred⟩

/-! ## Concrete fixtures used by individual claims -/

/-- The plain SVG root tag. -/
def svgSvgTag : String := "\x7bhttp://www.w3.org/2000/svg\x7dsvg"

/-- C1 fixture: a host document whose single image references
`missing.svg`, which does not exist next to the document. -/
def docC1 : Document :=
  ⟨.mk svgSvgTag [] [.mk svgImageTag [(href_attr, .str "missing.svg")] []],
    [some "svg", none]⟩

/-- C1 fixture: the filesystem holding only the host document. -/
def fsC1 : FS := ⟨"/", [("/doc/main.svg", some docC1)]⟩

/-- C2 fixture: an input document declaring the `inkscape` namespace
prefix, so the normalization stage converts it. -/
def docC2Input : Document :=
  ⟨.mk svgSvgTag [] [], [some "inkscape", some "svg"]⟩

/-- C2 fixture: the converted plain-SVG content, whose image references a
file that does not exist, so that the linking stage raises. -/
def docC2Converted : Document :=
  ⟨.mk svgSvgTag [] [.mk svgImageTag [(href_attr, .str "missing.svg")] []],
    [some "svg"]⟩

/-- C2 fixture: the filesystem holding only the input document. -/
def fsC2 : FS := ⟨"/", [("/in/doc.svg", some docC2Input)]⟩

/-- C6 witness fixture: an empty filesystem. -/
def fsC6 : FS := ⟨"/", []⟩

/-- C9 witness fixture: a parseable document declaring only standard
namespace prefixes. -/
def docC9 : Document := ⟨.mk svgSvgTag [] [], [some "svg", none]⟩

/-- C9 witness fixture: the filesystem holding that document. -/
def fsC9 : FS := ⟨"/", [("/in/clean.svg", some docC9)]⟩

/-! ## The claims -/

/-- Claim C1 (code_bug evidence): the spec says a Link Reference whose
absolutized form does not correspond to an existing file is a soft failure
(warn, continue, leave the reference unchanged, raise nothing).  On the
code, a relative reference to a non-existent file makes the `assert` inside
`make_absolute_href` fail before the warning branch of the first pass can
run, so the whole linking operation aborts with an `AssertionError`:
evaluated at the concrete failing input `missing.svg`. -/
theorem C1_missing_relative_ref_aborts_first_pass :
    inline_linked_vectors fsC1 "/doc/main.svg"
      = .error (.assertionError "File /doc/missing.svg doesn\x27t exist!") := rfl

/-- Claim C2 (code_bug evidence): the spec says the temporary document
produced by normalization is deleted on every exit path, including when
linking raises.  On the code, the `unlink` of the plain-SVG temporary is
only reached after `inline_linked_vectors` returns, so a linking failure
leaks it: in this run the normalization stage created the temporary
(`plainCreated = true`), linking aborted, and the temporary was never
deleted (`plainDeleted = false`). -/
theorem C2_normalization_temp_leaks_when_linking_fails :
    mainModel fsC2 "/in/doc.svg" "/tmp/plain.svg" (.success (some docC2Converted)) (.ok ())
      = { result := .error (.assertionError "File /tmp/missing.svg doesn\x27t exist!")
          plainCreated := true, plainDeleted := false, inlinedDeleted := false } := rfl

/-- Claim C3: for every reference starting with a data scheme, an http or
https scheme, a fully-qualified local-file scheme, or that is already an
absolute filesystem path, `make_absolute_href` returns the reference
unchanged, for any base directory and any filesystem. -/
theorem C3_nonlocal_or_absolute_ref_is_identity (fs : FS) (href base : String)
    (h : pyStartswith href "data:" = true ∨ pyStartswith href "http:" = true ∨
      pyStartswith href "https:" = true ∨ pyStartswith href "file:///" = true ∨
      isAbsolutePath href = true) :
    make_absolute_href fs href base = .ok href := by
  have hn : isNonLocalOrAbsolute href = true := by
    unfold isNonLocalOrAbsolute
    rcases h with h | h | h | h | h <;> simp [h]
  unfold make_absolute_href
  rw [if_pos hn]

/-- Witness for C3 at a concrete data URI and base directory. -/
theorem C3_witness :
    (pyStartswith "data:image/png;base64,AAA" "data:" = true ∨
      pyStartswith "data:image/png;base64,AAA" "http:" = true ∨
      pyStartswith "data:image/png;base64,AAA" "https:" = true ∨
      pyStartswith "data:image/png;base64,AAA" "file:///" = true ∨
      isAbsolutePath "data:image/png;base64,AAA" = true) ∧
    make_absolute_href ⟨"/", []⟩ "data:image/png;base64,AAA" "/some/dir"
      = .ok "data:image/png;base64,AAA" :=
  ⟨Or.inl (by decide),
    C3_nonlocal_or_absolute_ref_is_identity ⟨"/", []⟩ _ "/some/dir" (Or.inl (by decide))⟩

/-- Claim C6: for every placeholder whose linked vector file does not
exist on disk at inlining time, the Vector Inliner emits a warning
(modelled by the `skippedMissing` outcome), leaves the placeholder
untouched, and does not raise. -/
theorem C6_missing_linked_file_is_soft_skip (fs : FS) (image_elem : Element) (href : String)
    (h : fs.hasFile (extract_path_from_href href) = false) :
    inline_svg_image_element fs image_elem href = .ok .skippedMissing := by
  unfold inline_svg_image_element
  rw [if_neg (by simp [h])]

/-- Witness for C6: inlining against an empty filesystem skips. -/
theorem C6_witness :
    fsC6.hasFile (extract_path_from_href "file:///missing.svg") = false ∧
    inline_svg_image_element fsC6 (.mk svgImageTag [] []) "file:///missing.svg"
      = .ok .skippedMissing :=
  ⟨by decide, C6_missing_linked_file_is_soft_skip fsC6 _ _ (by decide)⟩

/-- Claim C9: for every parseable input document that declares neither the
`inkscape` nor the `sodipodi` namespace prefix, the Format Normalizer
returns the original input path unchanged and creates no temporary file
(the filesystem is returned untouched), regardless of what the conversion
subprocess would have done. -/
theorem C9_plain_document_passes_through (fs : FS) (svg_path tmpName : String)
    (conv : ConvOutcome) (doc : Document)
    (hp : fs.parseFile svg_path = .ok doc)
    (hn : needsConversion doc.nsmapKeys = false) :
    convert_to_plain_svg_if_needed fs svg_path tmpName conv = .ok (svg_path, false, fs) := by
  unfold convert_to_plain_svg_if_needed
  rw [hp]
  show (if needsConversion doc.nsmapKeys then _ else _) = _
  rw [hn]
  rfl

/-- Witness for C9 at a concrete clean document. -/
theorem C9_witness :
    fsC9.parseFile "/in/clean.svg" = .ok docC9 ∧
    needsConversion docC9.nsmapKeys = false ∧
    convert_to_plain_svg_if_needed fsC9 "/in/clean.svg" "/tmp/x.svg" .failure
      = .ok ("/in/clean.svg", false, fsC9) :=
  ⟨rfl, by decide,
    C9_plain_document_passes_through fsC9 _ "/tmp/x.svg" .failure docC9 rfl (by decide)⟩

/-- C5 fixture: a linked document with bounding box `0 0 50 25` and one
top-level child. -/
def linkedDocC5 : Document :=
  ⟨.mk svgSvgTag [("viewBox", .str "0 0 50 25")]
    [.mk "\x7bhttp://www.w3.org/2000/svg\x7dpath" [("d", .str "M 0 0 H 50 V 25 Z")] []],
    [some "svg"]⟩

/-- C5 fixture: the filesystem holding the linked document. -/
def fsC5 : FS := ⟨"/", [("/art/fig.svg", some linkedDocC5)]⟩

/-- C5 fixture: a placeholder at `x=10, y=20, width=100, height=50` with no
pre-existing transform. -/
def imgC5 : Element :=
  .mk svgImageTag
    [("x", .str "10"), ("y", .str "20"), ("width", .str "100"), ("height", .str "50"),
      (href_attr, .str "file:////art/fig.svg")] []

/-- Claim C5: the composite transform lists the placeholder's pre-existing
transform first (if any), then the translation by `(x, y)`, then the scale
by `(width/viewportWidth, height/viewportHeight)`; every successful inlining
produces its transform through exactly this composition; and the concrete
placeholder `x=10, y=20, width=100, height=50` over bounding box `0 0 50 25`
yields `translate(10,20) scale(2,2)`. -/
theorem C5_composite_transform_order :
    (∀ (t : String) (x y sx sy : ℚ), buildTransform (some t) x y sx sy
        = [.raw t, .translate x y, .scale sx sy]) ∧
    (∀ (x y sx sy : ℚ), buildTransform none x y sx sy
        = [.translate x y, .scale sx sy]) ∧
    (∀ (fs : FS) (img : Element) (href : String) (w : Wrapper),
        inline_svg_image_element fs img href = .ok (.replaced w) →
        ∃ x y sx sy, w.transform
            = buildTransform (getAttrStr img.attrib "transform") x y sx sy) ∧
    inline_svg_image_element fsC5 imgC5 "file:////art/fig.svg"
      = .ok (.replaced { transform := [.translate 10 20, .scale 2 2]
                         children := linkedDocC5.root.children }) := by
  refine ⟨fun t x y sx sy => rfl, fun x y sx sy => rfl, ?_, ?_⟩
  · intro fs img href w h
    unfold inline_svg_image_element at h
    by_cases hf : fs.hasFile (extract_path_from_href href) = true
    · rw [if_pos hf] at h
      rcases hp : fs.parseFile (extract_path_from_href href) with e | doc
      · simp only [hp] at h; exact Except.noConfusion h
      · simp only [hp] at h
        rcases hv : computeViewport doc.root with e | ⟨vbw, vbh, flag⟩
        · simp only [hv] at h; exact Except.noConfusion h
        · simp only [hv] at h
          rcases hx : pyFloat ((getAttrStr img.attrib "x").getD "0") with e | x
          · simp only [hx] at h; exact Except.noConfusion h
          · simp only [hx] at h
            rcases hy : pyFloat ((getAttrStr img.attrib "y").getD "0") with e | y
            · simp only [hy] at h; exact Except.noConfusion h
            · simp only [hy] at h
              rcases hw : (match getAttrStr img.attrib "width" with
                           | some s => pyFloat s
                           | none => .ok vbw) with e | width
              · simp only [hw] at h; exact Except.noConfusion h
              · simp only [hw] at h
                rcases hh : (match getAttrStr img.attrib "height" with
                             | some s => pyFloat s
                             | none => .ok vbh) with e | height
                · simp only [hh] at h; exact Except.noConfusion h
                · simp only [hh] at h
                  rcases hsx : pyDiv width vbw with e | sx
                  · simp only [hsx] at h; exact Except.noConfusion h
                  · simp only [hsx] at h
                    rcases hsy : pyDiv height vbh with e | sy
                    · simp only [hsy] at h; exact Except.noConfusion h
                    · simp only [hsy] at h
                      have h' : Except.ok (ε := PyErr) (InlineOutcome.replaced
                          { transform := buildTransform
                              (getAttrStr img.attrib "transform") x y sx sy
                            children := doc.root.children })
                          = Except.ok (InlineOutcome.replaced w) := h
                      injection h' with h1
                      injection h1 with h2
                      subst h2
                      exact ⟨x, y, sx, sy, rfl⟩
    · rw [if_neg hf] at h
      injection h with h1
      exact InlineOutcome.noConfusion h1
  · calc inline_svg_image_element fsC5 imgC5 "file:////art/fig.svg"
        = .ok (.replaced { transform := [.translate 10 20, .scale ((100 : ℚ)/50) ((50 : ℚ)/25)]
                           children := linkedDocC5.root.children }) := rfl
      _ = .ok (.replaced { transform := [.translate 10 20, .scale 2 2]
                           children := linkedDocC5.root.children }) := by norm_num

/-- Witness for C5: the transform of the concrete successful inlining has
the composed shape. -/
theorem C5_witness :
    ∃ x y sx sy : ℚ,
      ([TransformPart.translate 10 20, TransformPart.scale 2 2] : List TransformPart)
        = buildTransform (getAttrStr imgC5.attrib "transform") x y sx sy := by
  have h := C5_composite_transform_order
  exact h.2.2.1 fsC5 imgC5 "file:////art/fig.svg"
    { transform := [.translate 10 20, .scale 2 2], children := linkedDocC5.root.children }
    h.2.2.2

/-- C7 fixture: a linked document with no bounding box and
`width="200px" height="100px"`. -/
def rootC7 : Element :=
  .mk svgSvgTag [("width", .str "200px"), ("height", .str "100px")] []

/-- C7 counterexample fixture: no bounding box and `width="10mm"` — a unit
suffix other than `px`. -/
def rootC7mm : Element := .mk svgSvgTag [("width", .str "10mm")] []

/-- Counterexample to claim C7 as stated: the claim says the fallback uses
the width/height attributes "with unit suffixes stripped", but the code
only removes the literal substring `px`, so `width="10mm"` raises
`ValueError` through `float()` instead of yielding a viewport width of 10
(with height defaulting to 1). -/
theorem C7_counterexample_mm_unit :
    computeViewport rootC7mm = .error .valueError ∧
    computeViewport rootC7mm ≠ .ok (10, 1, true) :=
  ⟨rfl, fun h => Except.noConfusion h⟩

/-- Claim C7 as amended: the Viewport Descriptor prefers a non-empty
bounding-box attribute, of which only the width/height components are used;
otherwise it falls back to the width/height attributes with every
occurrence of the literal `px` removed (other unit suffixes are not
handled and fail float parsing), each defaulting independently to `"1"`
when absent, with a diagnostic recorded; in particular `width="200px"`,
`height="100px"` yields viewport `(200, 100)`. -/
theorem C7_amended_viewport_computation :
    (∀ (root : Element) (vb a b c d : String) (qa qb qc qd : ℚ),
        getAttrStr root.attrib "viewBox" = some vb → vb ≠ "" →
        pySplit (pyStrip vb) = [a, b, c, d] →
        parseFloat a = some qa → parseFloat b = some qb →
        parseFloat c = some qc → parseFloat d = some qd →
        computeViewport root = .ok (qc, qd, false)) ∧
    (∀ (root : Element) (w : String) (qw : ℚ),
        getAttrStr root.attrib "viewBox" = none →
        getAttrStr root.attrib "width" = some w →
        parseFloat (pyReplace w "px" "") = some qw →
        getAttrStr root.attrib "height" = none →
        computeViewport root = .ok (qw, 1, true)) ∧
    (∀ root : Element,
        getAttrStr root.attrib "viewBox" = none →
        getAttrStr root.attrib "width" = none →
        getAttrStr root.attrib "height" = none →
        computeViewport root = .ok (1, 1, true)) ∧
    computeViewport rootC7 = .ok (200, 100, true) := by
  refine ⟨?_, ?_, ?_, rfl⟩
  · intro root vb a b c d qa qb qc qd hvb hne hsplit ha hb hc hd
    unfold computeViewport
    simp only [hvb]
    rw [if_neg hne]
    simp only [hsplit, ha, hb, hc, hd]
  · intro root w qw hvb hw hqw hh
    unfold computeViewport
    simp only [hvb, hw, hh, Option.getD_some, Option.getD_none]
    unfold pyFloat
    rw [hqw]
    rfl
  · intro root hvb hw hh
    unfold computeViewport
    simp only [hvb, hw, hh, Option.getD_none]
    rfl

/-- Witness for the amended C7, exercising the bounding-box branch and the
fallback branch at concrete inputs. -/
theorem C7_amended_witness :
    computeViewport (.mk svgSvgTag [("viewBox", .str "0 0 50 25")] []) = .ok (50, 25, false) ∧
    computeViewport (.mk svgSvgTag [] []) = .ok (1, 1, true) := by
  constructor
  · exact C7_amended_viewport_computation.1 _ "0 0 50 25" "0" "0" "50" "25" 0 0 50 25
      rfl (by decide) rfl rfl rfl rfl rfl
  · exact C7_amended_viewport_computation.2.2.1 _ rfl rfl rfl

/-- C8 fixture: a linked document whose bounding box has width 0. -/
def docC8 : Document := ⟨.mk svgSvgTag [("viewBox", .str "0 0 0 25")] [], [some "svg"]⟩

/-- C8 fixture: the filesystem holding that document. -/
def fsC8 : FS := ⟨"/", [("/a/z.svg", some docC8)]⟩

/-- Claim C8: whenever the linked document parses and its viewport has a
zero width or height, the inlining fails with an uncaught exception (the
`ZeroDivisionError` of Python float division, the realization of the
spec's `MalformedDocumentError` for a zero viewport dimension) instead of
producing a transform with an infinite scale. -/
theorem C8_zero_viewport_dimension_aborts (fs : FS) (image_elem : Element) (href : String)
    (doc : Document) (vbw vbh : ℚ) (flag : Bool)
    (hp : fs.parseFile (extract_path_from_href href) = .ok doc)
    (hv : computeViewport doc.root = .ok (vbw, vbh, flag))
    (hz : vbw = 0 ∨ vbh = 0) :
    ∃ e, inline_svg_image_element fs image_elem href = .error e := by
  have hf : fs.hasFile (extract_path_from_href href) = true := hasFile_of_parseFile _ _ _ hp
  unfold inline_svg_image_element
  rw [if_pos hf]
  simp only [hp, hv]
  rcases hx : pyFloat ((getAttrStr image_elem.attrib "x").getD "0") with e | x
  · simp only [hx]; exact ⟨e, rfl⟩
  · simp only [hx]
    rcases hy : pyFloat ((getAttrStr image_elem.attrib "y").getD "0") with e | y
    · simp only [hy]; exact ⟨e, rfl⟩
    · simp only [hy]
      rcases hw : (match getAttrStr image_elem.attrib "width" with
                   | some s => pyFloat s
                   | none => .ok vbw) with e | width
      · simp only [hw]; exact ⟨e, rfl⟩
      · simp only [hw]
        rcases hh : (match getAttrStr image_elem.attrib "height" with
                     | some s => pyFloat s
                     | none => .ok vbh) with e | height
        · simp only [hh]; exact ⟨e, rfl⟩
        · simp only [hh]
          rcases hz with hz | hz
          · rw [hz]
            exact ⟨.zeroDivisionError, rfl⟩
          · rcases hsx : pyDiv width vbw with e | sx
            · simp only [hsx]; exact ⟨e, rfl⟩
            · simp only [hsx]
              rw [hz]
              exact ⟨.zeroDivisionError, rfl⟩

/-- Witness for C8 at the concrete zero-width bounding box. -/
theorem C8_witness :
    fsC8.parseFile (extract_path_from_href "/a/z.svg") = .ok docC8 ∧
    computeViewport docC8.root = .ok (0, 25, false) ∧
    ∃ e, inline_svg_image_element fsC8 (.mk svgImageTag [] []) "/a/z.svg" = .error e :=
  ⟨rfl, rfl,
    C8_zero_viewport_dimension_aborts fsC8 (.mk svgImageTag [] []) "/a/z.svg" docC8 0 25 false
      rfl rfl (Or.inl rfl)⟩

/-- Resolving an already absolute path just normalizes it. -/
theorem resolvePath_of_absolute (c q : String) (h : isAbsolutePath q = true) :
    resolvePath c q = normalizePath q := by
  unfold resolvePath
  rw [if_pos h]

/-- A path that starts with a slash character is absolute. -/
theorem isAbsolutePath_mk_slash (l : List Char) :
    isAbsolutePath ⟨'/' :: l⟩ = true := rfl

/-- Existence checks agree on paths that denote the same normalized
absolute location. -/
theorem hasFile_congr (fs : FS) (p q : String) (h : fs.resolve p = fs.resolve q) :
    fs.hasFile p = fs.hasFile q := by
  unfold FS.hasFile
  rw [h]

/-- C4 counterexample fixture: the filesystem holds a file whose name
contains a literal percent escape. -/
def fsC4 : FS := ⟨"/", [("/base/a%20b.svg", none)]⟩

/-- Counterexample to claim C4 as stated: `a%20b.svg` is a relative
reference that resolves against `/base` to the existing regular file
`/base/a%20b.svg`, yet `toAbsolute` followed by `toFilesystemPath` yields
`/base/a b.svg` (the percent escape is decoded on the way back), which is
not the resolved original target even after normalization. -/
theorem C4_counterexample_percent_in_name :
    make_absolute_href fsC4 "a%20b.svg" "/base" = .ok "file:////base/a%20b.svg" ∧
    resolvePath "/base" "a%20b.svg" = "/base/a%20b.svg" ∧
    fsC4.hasFile "/base/a%20b.svg" = true ∧
    normalizePath (extract_path_from_href "file:////base/a%20b.svg") = "/base/a b.svg" ∧
    ("/base/a b.svg" : String) ≠ "/base/a%20b.svg" :=
  ⟨rfl, rfl, by decide, rfl, by decide⟩

/-- Claim C4 as amended: for every relative reference that resolves
against the (absolute) base directory to an existing regular file *whose
resolved path contains no percent, question-mark or hash character*,
applying `make_absolute_href` and then `extract_path_from_href` yields a
filesystem path equal, after normalization, to the resolved original
target.  (The excluded characters are reinterpreted by the URI round trip:
`urlparse` splits at `?`/`#` and `unquote` decodes `%XX`.) -/
theorem C4_amended_roundtrip_clean (fs : FS) (base href : String)
    (_hb : isAbsolutePath base = true)
    (hn : isNonLocalOrAbsolute href = false)
    (hf : fs.hasFile (resolvePath base href) = true)
    (hc : uriClean (resolvePath base href) = true) :
    ∃ r, make_absolute_href fs href base = .ok r ∧
      normalizePath (extract_path_from_href r) = resolvePath base href := by
  refine ⟨"file:///" ++ resolvePath base href,
    make_absolute_href_resolves fs href base hn hf, ?_⟩
  rw [extract_file_uri_of_clean _ hc]
  exact normalizePath_slash_resolvePath base href

/-- C4 witness fixture: a clean relative reference to an existing file. -/
def fsC4w : FS := ⟨"/", [("/base/img.svg", none)]⟩

/-- Witness for the amended C4 at a concrete clean reference. -/
theorem C4_amended_witness :
    isAbsolutePath "/base" = true ∧
    isNonLocalOrAbsolute "img.svg" = false ∧
    fsC4w.hasFile (resolvePath "/base" "img.svg") = true ∧
    uriClean (resolvePath "/base" "img.svg") = true ∧
    ∃ r, make_absolute_href fsC4w "img.svg" "/base" = .ok r ∧
      normalizePath (extract_path_from_href r) = resolvePath "/base" "img.svg" :=
  ⟨by decide, by decide, by decide, by decide,
    C4_amended_roundtrip_clean fsC4w "/base" "img.svg"
      (by decide) (by decide) (by decide) (by decide)⟩

/-- C10 counterexample fixture: the filesystem holds a file whose name
contains a literal percent escape. -/
def fsC10 : FS := ⟨"/", [("/base/a%20b.svg", none)]⟩

/-- Counterexample to claim C10 as stated: the `"Linked file not found"`
warning branch of the first pass is reachable.  For the existing file
`/base/a%20b.svg`, `make_absolute_href` succeeds and returns a changed
reference, but the existence re-check percent-decodes the URI and looks up
`/base/a b.svg`, which does not exist, so the branch fires: the attribute
is left unchanged and the warning flag is set. -/
theorem C10_counterexample_warning_branch_reachable :
    make_absolute_href fsC10 "a%20b.svg" "/base" = .ok "file:////base/a%20b.svg" ∧
    fsC10.hasFile (extract_path_from_href "file:////base/a%20b.svg") = false ∧
    firstPassAttrib fsC10 "/base" [(href_attr, .str "a%20b.svg")]
      = .ok ([(href_attr, .str "a%20b.svg")], true) :=
  ⟨rfl, by decide, rfl⟩

/-- Claim C10 as amended: whenever `make_absolute_href` returns a
reference different from its input, the resolved target is an existing
regular file; and the post-resolution existence check of the first pass
succeeds — making the warning branch unreachable — *provided* the resolved
path contains no percent, question-mark or hash character (otherwise the
URI round trip can denote a different, possibly missing file, and the
branch is reachable). -/
theorem C10_amended_changed_ref_target_exists (fs : FS) (href base r : String)
    (h : make_absolute_href fs href base = .ok r) (hne : r ≠ href) :
    fs.hasFile (resolvePath base href) = true ∧
    (uriClean (resolvePath base href) = true →
      fs.hasFile (extract_path_from_href r) = true) := by
  unfold make_absolute_href at h
  by_cases hn : isNonLocalOrAbsolute href = true
  · rw [if_pos hn] at h
    injection h with h1
    exact absurd h1.symm hne
  · rw [if_neg hn] at h
    by_cases hf : fs.hasFile (resolvePath base href) = true
    · rw [if_pos hf] at h
      injection h with h1
      refine ⟨hf, fun hc => ?_⟩
      rw [← h1, extract_file_uri_of_clean _ hc]
      have e1 : fs.resolve ⟨'/' :: (resolvePath base href).data⟩
          = fs.resolve (resolvePath base href) := by
        unfold FS.resolve
        rw [resolvePath_of_absolute fs.cwd _ (isAbsolutePath_mk_slash _),
          resolvePath_of_absolute fs.cwd _ (isAbsolutePath_resolvePath base href),
          normalizePath_slash_resolvePath, normalizePath_resolvePath]
      rw [hasFile_congr fs _ _ e1]
      exact hf
    · rw [if_neg hf] at h
      exact Except.noConfusion h

/-- C10 witness fixture: a clean relative reference to an existing file. -/
def fsC10w : FS := ⟨"/", [("/base/img.svg", none)]⟩

/-- Witness for the amended C10 at a concrete clean reference. -/
theorem C10_amended_witness :
    make_absolute_href fsC10w "img.svg" "/base" = .ok "file:////base/img.svg" ∧
    ("file:////base/img.svg" : String) ≠ "img.svg" ∧
    fsC10w.hasFile (resolvePath "/base" "img.svg") = true ∧
    (uriClean (resolvePath "/base" "img.svg") = true →
      fsC10w.hasFile (extract_path_from_href "file:////base/img.svg") = true) :=
  ⟨rfl, by decide,
    (C10_amended_changed_ref_target_exists fsC10w "img.svg" "/base"
      "file:////base/img.svg" rfl (by decide)).1,
    (C10_amended_changed_ref_target_exists fsC10w "img.svg" "/base"
      "file:////base/img.svg" rfl (by decide)).2⟩

end SvgExport
